import Mathlib

/-!
Verification of the blacksmith DHCP/PXE boot coordinator.

This file is a shallow embedding of the repository code:
the etcd-backed node registry (`datasource` package: `EtcdDataSource`,
`EtcdMachine`) and the DHCP/PXE dispatcher (`dhcp` package: `ServeDHCP`,
`fillPXE`, `randLeaseDuration`).

Modelling conventions:
- Bytes are `Nat` below 256; MAC addresses are 6-element byte lists;
  IPv4 addresses are the 32-bit big-endian value as a `Nat` (arithmetic
  such as `dhcp4.IPAdd` is taken modulo 2^32, as in the Go code).
- The etcd store is an association list of leaf keys to string values,
  together with the list of child directories of the `machines/`
  directory in creation order (the only directory enumeration the code
  performs). etcd `Set` overwrites; `Get` on a missing key is the
  NotFound error, modelled as `none`.
- Go slices that can be nil (`net.IP`, `net.HardwareAddr`) are modelled
  as `Option` where nil-ness is observable (`net.IP.String` on nil gives
  the string chevron-nil), and as `[]` where the code only ever renders
  them (a nil `HardwareAddr` renders as the empty string).
- Wall-clock timestamps are passed in as an abstract string `now`.
- `rand.Intn n` is modelled by `r % n` for an arbitrary draw `r : Nat`,
  which ranges over exactly the values `Intn` can return.
-/

/-! ## Bytes, hex rendering, MAC and IP strings -/

/-- Lowercase hex digit character for a value below 16 (Go `%x`). -/
def hexDigitChar (n : Nat) : Char :=
  if n < 10 then Char.ofNat (48 + n) else Char.ofNat (87 + n)

/-- Two lowercase hex digits of a byte, as in Go `net.HardwareAddr.String`. -/
def byteHex (b : Nat) : String :=
  String.mk [hexDigitChar (b / 16 % 16), hexDigitChar (b % 16)]

/-- Rendering of a hardware address: hex bytes joined by colons
(`net.HardwareAddr.String`; the nil address renders as the empty string). -/
def macString (m : List Nat) : String :=
  String.intercalate ":" (m.map byteHex)

/-- Removal of every colon from a string
(Go `strings.Replace(s, ":", "", -1)`, also
`strings.Join(strings.Split(s, ":"), "")`). -/
def removeColons (s : String) : String :=
  String.mk (s.data.filter (fun c => c ≠ ':'))

/-- The four big-endian bytes of a 32-bit IPv4 value (Go `net.IP.To4`). -/
def ipBytes (ip : Nat) : List Nat :=
  [ip / 16777216 % 256, ip / 65536 % 256, ip / 256 % 256, ip % 256]

/-- The 32-bit value of a 4-byte IPv4 address. -/
def ipOfBytes (b : List Nat) : Nat :=
  match b with
  | [b0, b1, b2, b3] => b0 * 16777216 + b1 * 65536 + b2 * 256 + b3
  | _ => 0

/-- Dotted-quad rendering of an IPv4 value (Go `net.IP.String` on a
4-byte address). -/
def ipStr (ip : Nat) : String :=
  String.intercalate "." ((ipBytes ip).map (fun b => toString b))

/-- Rendering of a possibly-nil `net.IP`: Go `net.IP.String` returns the
string `<nil>` for a nil slice. -/
def ipStrOpt (ip : Option Nat) : String :=
  match ip with
  | none => "<nil>"
  | some v => ipStr v

/-- Go `dhcp4.IPAdd`: byte-wise big-endian addition, i.e. addition of the
32-bit values modulo 2^32. -/
def ipAdd (start : Nat) (i : Nat) : Nat :=
  (start + i) % 4294967296

/-! ## Parsers: `net.ParseMAC` and `net.ParseCIDR` -/

/-- Hex digit test, both cases, as accepted by the Go `net` parser. -/
def isHexDigitChar (c : Char) : Bool :=
  ('0' ≤ c && c ≤ '9') || ('a' ≤ c && c ≤ 'f') || ('A' ≤ c && c ≤ 'F')

/-- Value of a hex digit character. -/
def hexCharVal (c : Char) : Nat :=
  if '0' ≤ c && c ≤ '9' then c.toNat - 48
  else if 'a' ≤ c && c ≤ 'f' then c.toNat - 87
  else c.toNat - 55

/-- Splitting a character list on a separator character. -/
def splitOnChar (sep : Char) : List Char → List (List Char)
  | [] => [[]]
  | c :: rest =>
    let r := splitOnChar sep rest
    if c = sep then [] :: r
    else
      match r with
      | [] => [[c]]
      | g :: gs => (c :: g) :: gs

/-- Parse exactly two hex digits into a byte. -/
def parseHexPair (g : List Char) : Option Nat :=
  match g with
  | [c1, c2] =>
    if isHexDigitChar c1 && isHexDigitChar c2 then
      some (hexCharVal c1 * 16 + hexCharVal c2)
    else none
  | _ => none

/-- Go `net.ParseMAC` restricted to the colon-separated six-group form.
The full Go parser also accepts 8- and 20-byte addresses and dash/dot
separators; every string this repository feeds to `ParseMAC` is either a
six-group colon form or fails in both parsers. -/
def parseMAC (s : String) : Option (List Nat) :=
  let gs := splitOnChar ':' s.data
  if gs.length = 6 then gs.mapM parseHexPair else none

/-- Parse a decimal number (nonempty digit list). -/
def parseDecimal (g : List Char) : Option Nat :=
  if g ≠ [] && g.all (fun c => '0' ≤ c && c ≤ '9') then
    some (g.foldl (fun acc c => acc * 10 + (c.toNat - 48)) 0)
  else none

/-- Parse a dotted-quad IPv4 address into its 32-bit value. -/
def parseIPv4 (g : List Char) : Option Nat :=
  let parts := splitOnChar '.' g
  match parts.mapM parseDecimal with
  | some [b0, b1, b2, b3] =>
    if b0 < 256 && b1 < 256 && b2 < 256 && b3 < 256 then
      some (b0 * 16777216 + b1 * 65536 + b2 * 256 + b3)
    else none
  | _ => none

/-- Go `net.ParseCIDR`, returning only the address part: the input must
contain a slash; the part before it must be an IP address and the part
after it a valid prefix length. A plain dotted quad with no slash is an
error (`none`). -/
def parseCIDRIp (s : String) : Option Nat :=
  match splitOnChar '/' s.data with
  | [addr, mask] =>
    match parseIPv4 addr, parseDecimal mask with
    | some ip, some m => if m ≤ 32 then some ip else none
    | _, _ => none
  | _ => none

/-! ## Name mangling (`datasource` package) -/

/-- Source `addColonToMacAddress`: writes the first 12 characters of the
argument, inserting a colon after every second one, then drops the final
colon. The Go code indexes bytes 0..11 directly (it would panic on a
shorter string); every call site passes a 16-character machine name. -/
def addColonToMacAddress (colonLessMac : String) : String :=
  let withColons := (colonLessMac.data.take 12).enum.foldl
    (fun acc ic =>
      acc ++ [ic.2] ++ (if ic.1 % 2 = 1 then [':'] else []))
    []
  String.mk withColons.dropLast

/-- Source `nodeNameFromMac`: the literal `node` followed by the MAC
string with colons removed. -/
def nodeNameFromMac (mac : String) : String :=
  removeColons ("node" ++ mac)

/-- Source `EtcdMachine.Name`: same computation as `nodeNameFromMac`
applied to the stored hardware address. -/
def machineName (mac : List Nat) : String :=
  removeColons ("node" ++ macString mac)

/-! ## The etcd store and data source -/

/-- Configuration part of `EtcdDataSource`: the etcd directory prefix and
the lease pool bounds. -/
structure EtcdDataSource where
  etcdDir : String
  leaseStart : Nat
  leaseRange : Nat
deriving Repr, DecidableEq

/-- State of the etcd tree used by the code: the children of the
`machines/` directory (in creation order, as enumerated by `Machines`)
and the leaf key/value entries. -/
structure EtcdStore where
  machineDirs : List String
  entries : List (String × String)
deriving Repr, DecidableEq

/-- The empty etcd tree (fresh installation after `NewEtcdDataSource`
creates the empty `machines` directory). -/
def emptyStore : EtcdStore := ⟨[], []⟩

/-- Source `EtcdDataSource.prefixify`: `path.Join(etcdDir, key)`. For the
keys the code builds this is the prefix, a slash, and the key with any
single leading slash removed. -/
def prefixify (ds : EtcdDataSource) (key : String) : String :=
  ds.etcdDir ++ "/" ++
    (match key.data with
     | '/' :: rest => String.mk rest
     | _ => key)

/-- etcd `Get` on a leaf key: the stored value, or `none` for the
KeyNotFound error. -/
def storeGet (st : EtcdStore) (key : String) : Option String :=
  (st.entries.find? (fun e => e.1 = key)).map (fun e => e.2)

/-- etcd `Set` on a leaf key: create or overwrite. -/
def storeSet (st : EtcdStore) (key value : String) : EtcdStore :=
  { st with entries := (st.entries.filter (fun e => e.1 ≠ key)) ++ [(key, value)] }

/-- etcd `Set` with the Dir option on `machines/<name>`: records a new
child of the machines directory (`CreateMachine` only ever issues this
for a name that is not yet present, and ignores the call error). -/
def storeSetDir (st : EtcdStore) (name : String) : EtcdStore :=
  if st.machineDirs.contains name then st
  else { st with machineDirs := st.machineDirs ++ [name] }

/-- Source `EtcdDataSource.GetMachine`, reduced to its observable result:
the `Get` on the machine directory key succeeds exactly when the
directory exists, and the final segment comparison it performs is then
true by construction, so the machine exists iff its name is a child of
`machines/`. -/
def getMachineExists (st : EtcdStore) (mac : List Nat) : Bool :=
  st.machineDirs.contains (machineName mac)

/-- Loop body of source `EtcdDataSource.Machines`: for each child of the
`machines/` directory, colonify the child NAME (including its `node`
prefix — the source passes `machineName`, not the hex portion), parse it
with `net.ParseMAC` (failure aborts with that error), then require
`GetMachine` to find it (otherwise the Inconsistent-datasource error). -/
def machinesLoop (st : EtcdStore) : List String → Except String (List (List Nat))
  | [] => Except.ok []
  | name :: rest =>
    match parseMAC (addColonToMacAddress name) with
    | none => Except.error "invalid MAC address"
    | some mac =>
      if getMachineExists st mac then
        match machinesLoop st rest with
        | Except.error e => Except.error e
        | Except.ok ms => Except.ok (mac :: ms)
      else Except.error "Inconsistent datasource"

/-- Source `EtcdDataSource.Machines`: enumerate the children of
`machines/` and map each name back to a MAC. -/
def Machines (st : EtcdStore) : Except String (List (List Nat)) :=
  machinesLoop st st.machineDirs

/-- Source `EtcdMachine.IP`: `selfGet("IP")` reads the key
`<etcdDir>/<machineName>/IP` (note: the machine prefixify does NOT add
the `machines/` directory, and the key has no underscore), and the
result is parsed with `net.ParseCIDR`, which rejects a plain dotted
quad. -/
def machineIP (ds : EtcdDataSource) (st : EtcdStore) (mac : List Nat) : Option Nat :=
  match storeGet st (prefixify ds (machineName mac ++ "/IP")) with
  | none => none
  | some s => parseCIDRIp s

/-- Source `EtcdDataSource.store`: writes `machines/<name>/_IP` (with
`net.IP.String`, which renders a nil IP as the chevron-nil string) and
`machines/<name>/_last_seen`. -/
def storeMachine (ds : EtcdDataSource) (st : EtcdStore) (mac : List Nat)
    (ip : Option Nat) (now : String) : EtcdStore :=
  storeSet
    (storeSet st (prefixify ds ("machines/" ++ machineName mac ++ "/_IP")) (ipStrOpt ip))
    (prefixify ds ("machines/" ++ machineName mac ++ "/_last_seen")) now

/-- Modelled from the spec: `machine.CheckIn()` is called by
`CreateMachine` but the `Machine` interface implementation of `CheckIn`
is not among the source files; per the spec, the touch operation updates
`_last_seen` under the node directory. -/
def checkIn (ds : EtcdDataSource) (st : EtcdStore) (mac : List Nat) (now : String) : EtcdStore :=
  storeSet st (prefixify ds ("machines/" ++ machineName mac ++ "/_last_seen")) now

/-- Duplicate check loop of source `EtcdDataSource.CreateMachine`:
abort if any enumerated node has the same MAC string, if its `IP()`
accessor fails, or if its IP renders like the candidate IP. -/
def createCheckLoop (ds : EtcdDataSource) (st : EtcdStore) (mac : List Nat) (ip : Nat) :
    List (List Nat) → Bool
  | [] => true
  | node :: rest =>
    if macString node = macString mac then false
    else
      match machineIP ds st node with
      | none => false
      | some nodeip =>
        if ipStr nodeip = ipStr ip then false
        else createCheckLoop ds st mac ip rest

/-- Source `EtcdDataSource.CreateMachine`: list the machines (an
enumeration error aborts with failure), run the duplicate check, then
create the directory, write `_IP` (dotted quad), `_mac`, `_first_seen`,
check in, and set the `state` flag. `SetFlag` goes through the machine
`selfSet`, whose key does NOT include the `machines/` directory. -/
def CreateMachine (ds : EtcdDataSource) (st : EtcdStore) (mac : List Nat)
    (ip : Nat) (now : String) : EtcdStore × Bool :=
  match Machines st with
  | Except.error _ => (st, false)
  | Except.ok machines =>
    if createCheckLoop ds st mac ip machines then
      let name := machineName mac
      let st1 := storeSetDir st name
      let st2 := storeSet st1 (prefixify ds ("machines/" ++ name ++ "/_IP")) (ipStr ip)
      let st3 := storeSet st2 (prefixify ds ("machines/" ++ name ++ "/_mac")) (macString mac)
      let st4 := storeSet st3 (prefixify ds ("machines/" ++ name ++ "/_first_seen")) now
      let st5 := checkIn ds st4 mac now
      let st6 := storeSet st5 (prefixify ds (name ++ "/state")) "unknown"
      (st6, true)
    else (st, false)

/-- Result of source `EtcdDataSource.Assign`: the returned IP (nil
possible) and the returned error (the source returns a nil error on
every path, including the pool-full one). -/
structure AssignResult where
  ip : Option Nat
  err : Option String
deriving Repr, DecidableEq

/-- Ascending scan of source `EtcdDataSource.Assign`: the first index
`i` below `leaseRange`, in order, whose IP `leaseStart + i` renders to a
string not among the rendered node IPs, mapped to that IP. -/
def assignScan (ds : EtcdDataSource) (assigned : List String) : Option Nat :=
  ((List.range ds.leaseRange).find?
    (fun i => !(assigned.contains (ipStr (ipAdd ds.leaseStart i))))).map
    (fun i => ipAdd ds.leaseStart i)

/-- Source `EtcdDataSource.Assign`: list the machines dropping any error;
if one matches the nic, store and return its `IP()` result; otherwise
scan the pool in ascending order for an IP not present among the
rendered node IPs, create the machine (parse error and creation failure
both dropped) and return it; with no free IP return nil IP and nil
error. -/
def Assign (ds : EtcdDataSource) (st : EtcdStore) (nic : String) (now : String) :
    EtcdStore × AssignResult :=
  let machines := ((Machines st).toOption).getD []
  match machines.find? (fun node => macString node = nic) with
  | some node =>
    let ip := machineIP ds st node
    (storeMachine ds st node ip now, ⟨ip, none⟩)
  | none =>
    let assigned := machines.map (fun node => ipStrOpt (machineIP ds st node))
    match assignScan ds assigned with
    | some ip =>
      let mac := ((parseMAC nic).getD [])
      ((CreateMachine ds st mac ip now).1, ⟨some ip, none⟩)
    | none => (st, ⟨none, none⟩)

/-- Loop of source `EtcdDataSource.Request`: walk the machines
accumulating whether some node IP rendering matched and whether some
node MAC string matched; an exact double match stores and succeeds
immediately; at the end a partial match is the mismatch error and no
match creates the binding (creation failure dropped). -/
def requestLoop (ds : EtcdDataSource) (st : EtcdStore) (nic : String) (currentIP : Nat)
    (now : String) : List (List Nat) → Bool → Bool → EtcdStore × Except String Nat
  | [], ipExists, macExists =>
    if ipExists || macExists then (st, Except.error "Missmatch in lease pool")
    else
      let mac := ((parseMAC nic).getD [])
      ((CreateMachine ds st mac currentIP now).1, Except.ok currentIP)
  | node :: rest, ipExists, macExists =>
    let thisNodeIP := machineIP ds st node
    let ipMatch := ipStrOpt thisNodeIP = ipStr currentIP
    let macMatch := nic = macString node
    if ipMatch && macMatch then
      (storeMachine ds st node thisNodeIP now, Except.ok currentIP)
    else
      requestLoop ds st nic currentIP now rest (ipExists || ipMatch) (macExists || macMatch)

/-- Source `EtcdDataSource.Request`: list the machines dropping any
error, then run the matching loop. -/
def Request (ds : EtcdDataSource) (st : EtcdStore) (nic : String) (currentIP : Nat)
    (now : String) : EtcdStore × Except String Nat :=
  let machines := ((Machines st).toOption).getD []
  requestLoop ds st nic currentIP now machines false false

/-! ## DHCP dispatcher (`dhcp` package) -/

/-- DHCPv4 message types used by the dispatcher. -/
inductive DhcpMsgType where
  | discover | offer | request | decline | ack | nak | release | inform
deriving Repr, DecidableEq

/-- Source `DHCPSetting` fields the handler reads. -/
structure DHCPSetting where
  serverIP : Nat
  routerAddr : Option Nat
  subnetMask : Nat
deriving Repr, DecidableEq

/-- Source `DHCPHandler`. `bootMessage` is the byte string built at
construction from the version. The `clusterName` and DNS address fields
are modelled from the spec: the `DataSource` interface methods
`ClusterName` and `DNSAddresses` are not among the source files; per the
spec they return the startup-configured cluster name and DNS list. -/
structure DHCPHandler where
  settings : DHCPSetting
  bootMessage : List Nat
  clusterName : String
  dnsAddress : List Nat
deriving Repr, DecidableEq

/-- An incoming DHCPv4 packet as the handler consumes it: the client
hardware address, the `ciaddr` field bytes, the parsed message type, and
the options map (an association list keyed by option code). -/
structure InPacket where
  chaddr : List Nat
  ciaddr : List Nat
  msgType : DhcpMsgType
  options : List (Nat × List Nat)
deriving Repr, DecidableEq

/-- Lookup in the options map (Go `options[code]` with presence flag). -/
def optLookup (opts : List (Nat × List Nat)) (code : Nat) : Option (List Nat) :=
  (opts.find? (fun e => e.1 = code)).map (fun e => e.2)

/-- A reply packet, reduced to the fields the claims concern: message
type, `yiaddr`, lease seconds, and the option list in emission order. -/
structure Packet where
  msgType : DhcpMsgType
  serverIP : Nat
  yiaddr : Option Nat
  leaseSeconds : Nat
  options : List (Nat × List Nat)
deriving Repr, DecidableEq

/-- Go `packet.AddOption`: appends one option. -/
def addOption (p : Packet) (code : Nat) (value : List Nat) : Packet :=
  { p with options := p.options ++ [(code, value)] }

/-- ASCII bytes of a string (all strings involved are ASCII). -/
def strBytes (s : String) : List Nat :=
  s.data.map Char.toNat

/-- Source `randLeaseDuration` in seconds: `minLeaseHours` (24) plus
`rand.Intn(maxLeaseHours - minLeaseHours)` hours, the `Intn` draw
modelled as `r % 24` over an arbitrary `r`, times 3600 seconds. -/
def randLeaseDuration (r : Nat) : Nat :=
  (24 + r % 24) * 3600

/-- Source `fillPXE`: discovery control, boot server list with the
server IP, boot menu and menu prompt both carrying the boot message with
a one-byte length field (a Go `byte(...)` cast, hence modulo 256), and
the trailing end byte. -/
def fillPXE (h : DHCPHandler) : List Nat :=
  [6, 1, 3] ++
  [8, 7, 128, 0, 1] ++ ipBytes h.settings.serverIP ++
  [9, (3 + h.bootMessage.length) % 256, 128, 0, 9] ++ h.bootMessage ++
  [10, (1 + h.bootMessage.length) % 256, 2] ++ h.bootMessage ++
  [255]

/-- The base options of a reply: the handler builds a map with subnet
mask (1), DNS (6) and, when configured, router (3); Go map iteration
order is unspecified, the model fixes this one (no claim depends on
it). -/
def dhcpOptionsBase (h : DHCPHandler) : List (Nat × List Nat) :=
  [(1, ipBytes h.settings.subnetMask), (6, h.dnsAddress)] ++
  (match h.settings.routerAddr with
   | some r => [(3, ipBytes r)]
   | none => [])

/-- Go `dhcp4.Options.SelectOrderOrAll`: with no parameter request list
all options are emitted, otherwise the requested codes in order, keeping
those present. -/
def selectOrderOrAll (opts : List (Nat × List Nat)) (param : Option (List Nat)) :
    List (Nat × List Nat) :=
  match param with
  | none => opts
  | some order => order.filterMap (fun code => opts.find? (fun e => e.1 = code))

/-- The positive reply skeleton built by `dhcp4.ReplyPacket` plus the
selected options. -/
def basePacket (h : DHCPHandler) (mt : DhcpMsgType) (yiaddr : Option Nat) (r : Nat)
    (param : Option (List Nat)) : Packet :=
  { msgType := mt
    serverIP := h.settings.serverIP
    yiaddr := yiaddr
    leaseSeconds := randLeaseDuration r
    options := selectOrderOrAll (dhcpOptionsBase h) param }

/-- The NAK reply `dhcp4.ReplyPacket(p, NAK, serverIP, nil, 0, nil)`. -/
def nakPacket (h : DHCPHandler) : Packet :=
  { msgType := DhcpMsgType.nak
    serverIP := h.settings.serverIP
    yiaddr := none
    leaseSeconds := 0
    options := [] }

/-- Outcome of one `ServeDHCP` invocation: either a Go runtime fault
(the out-of-bounds slice of a zero-length option 97), or the resulting
store together with the optional reply packet. -/
inductive HandlerResult where
  | fault : HandlerResult
  | reply : EtcdStore → Option Packet → HandlerResult
deriving Repr, DecidableEq

/-- The PXE block shared by the Discover and Request branches: when
option 97 is present the handler slices off its first byte — an
out-of-bounds slice (runtime fault) when the value is empty — and adds
options 60 (the literal PXEClient), 97 (the sliced GUID) and 43 (the
vendor blob). -/
def pxeAugment (h : DHCPHandler) (packet : Packet) (guid : Option (List Nat)) :
    Option Packet :=
  match guid with
  | none => some packet
  | some guidVal =>
    if guidVal.isEmpty then none
    else some (addOption (addOption (addOption packet 60 (strBytes "PXEClient"))
      97 guidVal.tail) 43 (fillPXE h))

/-- The hostname value of option 12: `node`, the colon-less hex MAC, a
dot, and the cluster name. -/
def hostnameBytes (chaddr : List Nat) (clusterName : String) : List Nat :=
  strBytes ("node" ++ removeColons (macString chaddr) ++ "." ++ clusterName)

/-- Discover branch of source `ServeDHCP`: call `Assign`; a non-nil
error drops the packet (the source comment reads: pool is full); build
the Offer; run the PXE block. -/
def discoverReply (h : DHCPHandler) (ds : EtcdDataSource) (st : EtcdStore)
    (chaddr : List Nat) (options : List (Nat × List Nat)) (r : Nat) (now : String) :
    HandlerResult :=
  let ar := Assign ds st (macString chaddr) now
  match ar.2.err with
  | some _ => HandlerResult.reply ar.1 none
  | none =>
    match pxeAugment h (basePacket h DhcpMsgType.offer ar.2.ip r (optLookup options 55))
        (optLookup options 97) with
    | none => HandlerResult.fault
    | some pkt => HandlerResult.reply ar.1 (some pkt)

/-- Request branch body of source `ServeDHCP`, after the server
identifier test: validate the requested IP (4 bytes, nonzero), call
`Request`; an error is answered with a NAK; otherwise build the ACK, run
the PXE block, and append the hostname option 12. -/
def requestReplyBody (h : DHCPHandler) (ds : EtcdDataSource) (st : EtcdStore)
    (chaddr : List Nat) (requestedIP : List Nat) (options : List (Nat × List Nat))
    (r : Nat) (now : String) : HandlerResult :=
  if requestedIP.length ≠ 4 || requestedIP = [0, 0, 0, 0] then
    HandlerResult.reply st none
  else
    let reqIp := ipOfBytes requestedIP
    let rr := Request ds st (macString chaddr) reqIp now
    match rr.2 with
    | Except.error _ => HandlerResult.reply rr.1 (some (nakPacket h))
    | Except.ok _ =>
      match pxeAugment h (basePacket h DhcpMsgType.ack (some reqIp) r (optLookup options 55))
          (optLookup options 97) with
      | none => HandlerResult.fault
      | some pkt =>
        HandlerResult.reply rr.1
          (some (addOption pkt 12 (hostnameBytes chaddr h.clusterName)))

/-- Source `ServeDHCP` dispatch: Discover and Request are handled;
Release, Decline and every other message type produce no reply. In the
Request case, a present server identifier (option 54) naming another
server drops the packet, and the requested IP is option 50 when present,
else the `ciaddr` field. -/
def ServeDHCP (h : DHCPHandler) (ds : EtcdDataSource) (st : EtcdStore)
    (p : InPacket) (r : Nat) (now : String) : HandlerResult :=
  match p.msgType with
  | DhcpMsgType.discover => discoverReply h ds st p.chaddr p.options r now
  | DhcpMsgType.request =>
    match optLookup p.options 54 with
    | some server =>
      if server = ipBytes h.settings.serverIP then
        requestReplyBody h ds st p.chaddr ((optLookup p.options 50).getD p.ciaddr)
          p.options r now
      else HandlerResult.reply st none
    | none =>
      requestReplyBody h ds st p.chaddr ((optLookup p.options 50).getD p.ciaddr)
        p.options r now
  | _ => HandlerResult.reply st none

/-- Reply packet of a handler outcome, when one was produced. -/
def resultPacketOpt (res : HandlerResult) : Option Packet :=
  match res with
  | HandlerResult.fault => none
  | HandlerResult.reply _ p => p

/-- Decidable equality on `Except` results, for evaluating the model on
concrete inputs. -/
instance (ε α : Type) [DecidableEq ε] [DecidableEq α] : DecidableEq (Except ε α) :=
  fun a b =>
    match a, b with
    | Except.ok x, Except.ok y =>
      if h : x = y then isTrue (by rw [h])
      else isFalse (by intro hc; cases hc; exact h rfl)
    | Except.error x, Except.error y =>
      if h : x = y then isTrue (by rw [h])
      else isFalse (by intro hc; cases hc; exact h rfl)
    | Except.ok _, Except.error _ => isFalse (by intro hc; cases hc)
    | Except.error _, Except.ok _ => isFalse (by intro hc; cases hc)

/-! ## Concrete fixtures used by counterexamples and witnesses -/

/-- Demo data source: prefix `blacksmith`, lease pool starting at
10.0.0.10 (32-bit value 167772170) with range 4. -/
def dsDemo : EtcdDataSource := ⟨"blacksmith", 167772170, 4⟩

/-- Data source with a single-IP pool. -/
def dsOne : EtcdDataSource := ⟨"blacksmith", 167772170, 1⟩

/-- Data source with an empty pool (the scan loop body never runs). -/
def dsZero : EtcdDataSource := ⟨"blacksmith", 167772170, 0⟩

/-- MAC aa:bb:cc:dd:ee:01. -/
def macA : List Nat := [170, 187, 204, 221, 238, 1]

/-- MAC aa:bb:cc:dd:ee:02. -/
def macB : List Nat := [170, 187, 204, 221, 238, 2]

/-- Demo handler: server 10.0.0.1, router 10.0.0.1, mask 255.255.255.0,
the version boot message, a cluster name, one DNS address. -/
def handlerDemo : DHCPHandler :=
  ⟨⟨167772161, some 167772161, 4294967040⟩,
    strBytes "Blacksmith (v0.2)", "cafecluster", [8, 8, 8, 8]⟩

/-- Store after creating the node binding `macA` to 10.0.0.10 on an
empty registry (this creation path works: the registry was empty). -/
def stOne : EtcdStore := (CreateMachine dsDemo emptyStore macA 167772170 "t0").1

/-- Discover packet from `macA`, no options. -/
def discA : InPacket := ⟨macA, [0, 0, 0, 0], DhcpMsgType.discover, []⟩

/-- Discover packet from `macB`, no options. -/
def discB : InPacket := ⟨macB, [0, 0, 0, 0], DhcpMsgType.discover, []⟩

/-- Discover packet from `macB` with a 17-byte option 97 (type byte and
16 GUID bytes). -/
def discBPxe : InPacket :=
  ⟨macB, [0, 0, 0, 0], DhcpMsgType.discover,
    [(97, [0, 1, 2, 3, 4, 5, 6, 7, 8, 9, 10, 11, 12, 13, 14, 15, 16])]⟩

/-- Discover packet from `macB` with a zero-length option 97. -/
def discBPxeEmpty : InPacket :=
  ⟨macB, [0, 0, 0, 0], DhcpMsgType.discover, [(97, [])]⟩

/-- Request packet from `macA` asking (option 50) for 10.0.0.10. -/
def reqA : InPacket := ⟨macA, [0, 0, 0, 0], DhcpMsgType.request, [(50, [10, 0, 0, 10])]⟩

/-- Request packet from `macA` asking for 10.0.0.10 with the 17-byte
option 97. -/
def reqAPxe : InPacket :=
  ⟨macA, [0, 0, 0, 0], DhcpMsgType.request,
    [(50, [10, 0, 0, 10]), (97, [0, 1, 2, 3, 4, 5, 6, 7, 8, 9, 10, 11, 12, 13, 14, 15, 16])]⟩

/-- Reply to a plain Discover from `macA` on the empty registry. -/
def offerNoPxe : Option Packet :=
  resultPacketOpt (ServeDHCP handlerDemo dsDemo emptyStore discA 0 "t0")

/-- Outcome of the PXE Discover `discBPxe` on the empty registry. -/
def c6res : HandlerResult := ServeDHCP handlerDemo dsDemo emptyStore discBPxe 3 "t1"

/-- Store component of `c6res`. -/
def c6st : EtcdStore :=
  match c6res with
  | HandlerResult.reply st _ => st
  | _ => emptyStore

/-- Reply packet of `c6res`. -/
def c6pkt : Packet :=
  match c6res with
  | HandlerResult.reply _ (some pkt) => pkt
  | _ => nakPacket handlerDemo

/-- Outcome of the Request `reqA` on the empty registry (an ACK: the
empty registry creates the binding). -/
def c7res : HandlerResult := ServeDHCP handlerDemo dsDemo emptyStore reqA 5 "t0"

/-- Store component of `c7res`. -/
def c7st : EtcdStore :=
  match c7res with
  | HandlerResult.reply st _ => st
  | _ => emptyStore

/-- Reply packet of `c7res`. -/
def c7pkt : Packet :=
  match c7res with
  | HandlerResult.reply _ (some pkt) => pkt
  | _ => nakPacket handlerDemo

/-! ## Helper lemmas -/

/-- Lemma: the PXE block preserves the packet message type. -/
theorem pxeAugment_msgType (h : DHCPHandler) (pkt : Packet) (guid : Option (List Nat))
    (out : Packet) (hout : pxeAugment h pkt guid = some out) :
    out.msgType = pkt.msgType := by
  cases guid with
  | none =>
    simp only [pxeAugment] at hout
    cases hout
    rfl
  | some g =>
    simp only [pxeAugment] at hout
    by_cases hge : g.isEmpty
    · simp [hge] at hout
    · simp only [hge, if_neg, Bool.false_eq_true, not_false_eq_true, if_false] at hout
      cases hout
      rfl

/-- Lemma: when option 97 is present, a successful PXE block output
carries options 60, 97 with the first byte stripped, and 43 with the
vendor blob. -/
theorem pxeAugment_mem (h : DHCPHandler) (pkt : Packet) (g : List Nat)
    (out : Packet) (hout : pxeAugment h pkt (some g) = some out) :
    (60, strBytes "PXEClient") ∈ out.options ∧
    (97, g.tail) ∈ out.options ∧
    (43, fillPXE h) ∈ out.options := by
  simp only [pxeAugment] at hout
  by_cases hge : g.isEmpty
  · simp [hge] at hout
  · simp only [hge, Bool.false_eq_true, if_false] at hout
    cases hout
    simp [addOption]

/-- Lemma: a PXE block failure happens exactly on a present, zero-length
option 97 value. -/
theorem pxeAugment_none (h : DHCPHandler) (pkt : Packet) (guid : Option (List Nat))
    (hn : pxeAugment h pkt guid = none) : guid = some [] := by
  cases guid with
  | none => simp [pxeAugment] at hn
  | some g =>
    cases g with
    | nil => rfl
    | cons a l => simp [pxeAugment] at hn

/-- Lemma: with the boot message short enough for its one-byte length
fields (every real boot message is a few dozen bytes), the vendor blob
has exactly the documented layout with un-truncated length bytes. -/
theorem fillPXE_layout (h : DHCPHandler) (hlen : 3 + h.bootMessage.length ≤ 255) :
    fillPXE h =
      [6, 1, 3] ++ [8, 7, 128, 0, 1] ++ ipBytes h.settings.serverIP ++
      [9, 3 + h.bootMessage.length, 128, 0, 9] ++ h.bootMessage ++
      [10, 1 + h.bootMessage.length, 2] ++ h.bootMessage ++ [255] := by
  unfold fillPXE
  rw [Nat.mod_eq_of_lt (by omega), Nat.mod_eq_of_lt (by omega)]

/-! ## Claim C1 -/

/-- C1: the claimed name round trip fails in the code. The node name is
the pure function node-plus-hex of the MAC, but `Machines` hands the
whole directory entry name — `node` prefix included — to
`addColonToMacAddress`, yielding a string whose first group is `no`,
which `net.ParseMAC` rejects; enumerating the registry after creating
the node for `macA` therefore returns the parse error instead of a node
whose MAC equals `macA`. -/
theorem machines_roundtrip_fails_after_create :
    machineName macA = "nodeaabbccddee01" ∧
    addColonToMacAddress "nodeaabbccddee01" = "no:de:aa:bb:cc:dd" ∧
    parseMAC "no:de:aa:bb:cc:dd" = none ∧
    Machines stOne = Except.error "invalid MAC address" := by
  refine ⟨by decide, by decide, by decide, by decide⟩

/-! ## Claim C2 -/

/-- C2: Request conservatism is violated by the code. With a registry
holding exactly one node binding `macA` to 10.0.0.10 (created on an
empty store), a `Request` from the different MAC `macB` for that same
IP must, per the claim, return Conflict; the code instead returns the
IP as a success (the enumeration of the registry fails on the mangled
name, the error is discarded, the snapshot looks empty, and the
fallback creation also fails silently, leaving the store unchanged). -/
theorem request_conflict_not_detected :
    storeGet stOne "blacksmith/machines/nodeaabbccddee01/_IP" = some "10.0.0.10" ∧
    stOne.machineDirs = ["nodeaabbccddee01"] ∧
    (Request dsDemo stOne "aa:bb:cc:dd:ee:02" 167772170 "t1").2 = Except.ok 167772170 ∧
    (Request dsDemo stOne "aa:bb:cc:dd:ee:02" 167772170 "t1").1 = stOne := by
  refine ⟨by decide, by decide, by decide, by decide⟩

/-! ## Claim C3 -/

/-- C3: the pool-full outcome is not a dropped packet. With a one-IP
pool whose only IP is already bound to `macA`, a Discover from the new
`macB` makes `Assign` return that same already-bound IP with a nil
error (the full snapshot is invisible to it), and the dispatcher emits
an Offer; and even on the genuine no-free-IP path (empty pool), `Assign`
returns a nil IP together with a nil error, so the dispatcher emits an
Offer with no `yiaddr` instead of dropping the Discover. -/
theorem pool_full_discover_not_dropped :
    (Assign dsOne stOne "aa:bb:cc:dd:ee:02" "t1").2 = ⟨some 167772170, none⟩ ∧
    (resultPacketOpt (ServeDHCP handlerDemo dsOne stOne discB 0 "t1")).map
      (fun p => (p.msgType, p.yiaddr)) = some (DhcpMsgType.offer, some 167772170) ∧
    (Assign dsZero emptyStore "aa:bb:cc:dd:ee:02" "t1").2 = ⟨none, none⟩ ∧
    (resultPacketOpt (ServeDHCP handlerDemo dsZero emptyStore discB 0 "t1")).map
      (fun p => (p.msgType, p.yiaddr)) = some (DhcpMsgType.offer, none) := by
  refine ⟨by decide, by decide, by decide, by decide⟩

/-! ## Claim C5 -/

/-- C5: ascending allocation fails at the second distinct MAC. Starting
from the empty registry with leaseStart 10.0.0.10, the first Assign
returns 10.0.0.10 as claimed, but the second Assign, from a different
MAC, returns 10.0.0.10 again instead of 10.0.0.11: the node created for
the first MAC is invisible to the enumeration (its name fails to parse
back to a MAC and the error is discarded), so its IP is never treated as
taken. -/
theorem ascending_allocation_broken :
    ((Assign dsDemo emptyStore "aa:bb:cc:dd:ee:01" "t0").2).ip = some 167772170 ∧
    ((Assign dsDemo (Assign dsDemo emptyStore "aa:bb:cc:dd:ee:01" "t0").1
        "aa:bb:cc:dd:ee:02" "t1").2).ip = some 167772170 ∧
    ipStr 167772170 = "10.0.0.10" ∧ ipStr 167772171 = "10.0.0.11" := by
  refine ⟨by decide, by decide, by decide, by decide⟩

/-! ## Claim C8 -/

/-- C8: the stored field and the accessor do not match. `CreateMachine`
does store `_IP` as the dotted-quad text under
`machines/nodeaabbccddee01/_IP`, but the accessor `IP()` reads the key
`nodeaabbccddee01/IP` (no `machines/` directory, no underscore), which
holds nothing, and its parser `net.ParseCIDR` would in any case reject
the stored plain dotted quad, accepting only the CIDR-suffixed legacy
form; so reading back the IP of a freshly created node fails instead of
returning the IP. -/
theorem machine_ip_accessor_broken :
    storeGet stOne "blacksmith/machines/nodeaabbccddee01/_IP" = some "10.0.0.10" ∧
    storeGet stOne "blacksmith/nodeaabbccddee01/IP" = none ∧
    machineIP dsDemo stOne macA = none ∧
    parseCIDRIp "10.0.0.10" = none ∧
    parseCIDRIp "10.0.0.10/24" = some 167772170 := by
  refine ⟨by decide, by decide, by decide, by decide, by decide⟩

/-! ## Claim C9 -/

/-- C9: every possible draw of the lease duration is a whole number of
hours within the half-open interval from 24 to 48 hours: the duration in
seconds is divisible by 3600 and its hour count lies in that range. -/
theorem lease_duration_bounds (r : Nat) :
    randLeaseDuration r % 3600 = 0 ∧
    24 * 3600 ≤ randLeaseDuration r ∧
    randLeaseDuration r < 48 * 3600 := by
  unfold randLeaseDuration
  refine ⟨by omega, by omega, by omega⟩

/-! ## Claim C4 -/

/-- C4: counterexample. From the empty registry, a single `Request` for
10.0.0.50 — outside the pool, which covers 10.0.0.10 up to 10.0.0.13 —
is granted: the allocator returns an IP that does not lie in the
half-open pool interval. -/
theorem request_grants_ip_outside_pool :
    (Request dsDemo emptyStore "aa:bb:cc:dd:ee:01" 167772210 "t0").2 = Except.ok 167772210 ∧
    ¬ (dsDemo.leaseStart ≤ 167772210 ∧ 167772210 < dsDemo.leaseStart + dsDemo.leaseRange) ∧
    ipStr 167772210 = "10.0.0.50" := by
  refine ⟨by decide, by decide, by decide⟩

/-- Lemma: a successful ascending scan lands in the pool interval,
provided the pool does not wrap around the 32-bit address space. -/
theorem assignScan_within_pool (ds : EtcdDataSource) (assigned : List String) (ip : Nat)
    (hnw : ds.leaseStart + ds.leaseRange ≤ 4294967296)
    (h : assignScan ds assigned = some ip) :
    ds.leaseStart ≤ ip ∧ ip < ds.leaseStart + ds.leaseRange := by
  unfold assignScan at h
  rcases hf : (List.range ds.leaseRange).find?
      (fun i => !(assigned.contains (ipStr (ipAdd ds.leaseStart i)))) with _ | i
  · rw [hf] at h; simp at h
  · rw [hf] at h
    simp only [Option.map_some'] at h
    have hi : i < ds.leaseRange := List.mem_range.mp (List.mem_of_find?_eq_some hf)
    cases h
    unfold ipAdd
    rw [Nat.mod_eq_of_lt (by omega)]
    omega

/-- C4 as amended: an IP that `Assign` hands to a MAC not matched by any
node of the (as enumerated) registry snapshot lies in the pool interval
when the pool does not wrap around; the original claim fails because
`Request` grants — and a matched node re-offers — arbitrary stored or
requested IPs, with no pool check. -/
theorem assign_ip_within_pool (ds : EtcdDataSource) (st : EtcdStore) (nic now : String)
    (ip : Nat)
    (hmac : (((Machines st).toOption).getD []).find? (fun node => macString node = nic) = none)
    (hnw : ds.leaseStart + ds.leaseRange ≤ 4294967296)
    (hip : ((Assign ds st nic now).2).ip = some ip) :
    ds.leaseStart ≤ ip ∧ ip < ds.leaseStart + ds.leaseRange := by
  simp only [Assign] at hip
  rw [hmac] at hip
  rcases hs : assignScan ds ((((Machines st).toOption).getD []).map
      (fun node => ipStrOpt (machineIP ds st node))) with _ | ip0
  · rw [hs] at hip; simp at hip
  · rw [hs] at hip
    simp at hip
    subst hip
    exact assignScan_within_pool ds _ _ hnw hs

/-- Witness for the amended C4 at a concrete input: a fresh MAC on the
empty registry is assigned 10.0.0.10, inside the pool. -/
theorem assign_ip_within_pool_witness :
    dsDemo.leaseStart ≤ 167772170 ∧ 167772170 < dsDemo.leaseStart + dsDemo.leaseRange :=
  assign_ip_within_pool dsDemo emptyStore "aa:bb:cc:dd:ee:03" "t0" 167772170
    (by decide) (by decide) (by decide)

/-! ## Claim C6 -/

/-- Lemma: a reply produced by the Discover branch when option 97 is
present carries the three PXE options. -/
theorem discoverReply_pxe (h : DHCPHandler) (ds : EtcdDataSource) (st : EtcdStore)
    (ch : List Nat) (opts : List (Nat × List Nat)) (r : Nat) (now : String)
    (st2 : EtcdStore) (pkt : Packet) (g : List Nat)
    (hrun : discoverReply h ds st ch opts r now = HandlerResult.reply st2 (some pkt))
    (hg : optLookup opts 97 = some g) :
    (60, strBytes "PXEClient") ∈ pkt.options ∧
    (97, g.tail) ∈ pkt.options ∧
    (43, fillPXE h) ∈ pkt.options := by
  simp only [discoverReply] at hrun
  rcases he : (Assign ds st (macString ch) now).2.err with _ | e
  · rw [he] at hrun
    rcases hp : pxeAugment h (basePacket h DhcpMsgType.offer
        (Assign ds st (macString ch) now).2.ip r (optLookup opts 55)) (optLookup opts 97)
      with _ | out
    · rw [hp] at hrun; simp at hrun
    · rw [hp] at hrun
      simp at hrun
      rw [hg] at hp
      rw [← hrun.2]
      exact pxeAugment_mem h _ g out hp
  · rw [he] at hrun; simp at hrun

/-- Lemma: a non-NAK reply produced by the Request branch when option 97
is present carries the three PXE options. -/
theorem requestReplyBody_pxe (h : DHCPHandler) (ds : EtcdDataSource) (st : EtcdStore)
    (ch : List Nat) (reqIP : List Nat) (opts : List (Nat × List Nat)) (r : Nat)
    (now : String) (st2 : EtcdStore) (pkt : Packet) (g : List Nat)
    (hrun : requestReplyBody h ds st ch reqIP opts r now = HandlerResult.reply st2 (some pkt))
    (hg : optLookup opts 97 = some g)
    (hnak : pkt.msgType ≠ DhcpMsgType.nak) :
    (60, strBytes "PXEClient") ∈ pkt.options ∧
    (97, g.tail) ∈ pkt.options ∧
    (43, fillPXE h) ∈ pkt.options := by
  simp only [requestReplyBody] at hrun
  split at hrun
  · simp at hrun
  · rcases hr : (Request ds st (macString ch) (ipOfBytes reqIP) now).2 with e | v
    · rw [hr] at hrun
      simp at hrun
      exact absurd (by rw [← hrun.2]; rfl) hnak
    · rw [hr] at hrun
      rcases hp : pxeAugment h (basePacket h DhcpMsgType.ack (some (ipOfBytes reqIP)) r
          (optLookup opts 55)) (optLookup opts 97) with _ | out
      · rw [hp] at hrun; simp at hrun
      · rw [hp] at hrun
        simp at hrun
        rw [hg] at hp
        have hm := pxeAugment_mem h _ g out hp
        rw [← hrun.2]
        simp only [addOption]
        exact ⟨List.mem_append_left _ hm.1, List.mem_append_left _ hm.2.1,
          List.mem_append_left _ hm.2.2⟩

/-- C6: every Offer or Ack emitted for a packet carrying option 97
contains option 60 with the literal PXEClient bytes, option 97 with the
first byte of the request value stripped, and option 43 laid out exactly
as 06 01 03, then 08 07 80 00 01 and the four server IP bytes, then 09,
3 plus the message length, 80 00 09 and the message, then 0A, 1 plus the
message length, 02 and the message, then FF — with length bytes matching
the boot message length (which fits a byte). -/
theorem pxe_option_parity (h : DHCPHandler) (ds : EtcdDataSource) (st : EtcdStore)
    (p : InPacket) (r : Nat) (now : String) (st2 : EtcdStore) (pkt : Packet) (g : List Nat)
    (hrun : ServeDHCP h ds st p r now = HandlerResult.reply st2 (some pkt))
    (hg : optLookup p.options 97 = some g)
    (hmt : pkt.msgType = DhcpMsgType.offer ∨ pkt.msgType = DhcpMsgType.ack)
    (hlen : 3 + h.bootMessage.length ≤ 255) :
    (60, strBytes "PXEClient") ∈ pkt.options ∧
    (97, g.tail) ∈ pkt.options ∧
    (43, [6, 1, 3] ++ [8, 7, 128, 0, 1] ++ ipBytes h.settings.serverIP ++
      [9, 3 + h.bootMessage.length, 128, 0, 9] ++ h.bootMessage ++
      [10, 1 + h.bootMessage.length, 2] ++ h.bootMessage ++ [255]) ∈ pkt.options := by
  rw [← fillPXE_layout h hlen]
  have hnak : pkt.msgType ≠ DhcpMsgType.nak := by
    rcases hmt with h1 | h1 <;> rw [h1] <;> intro hc <;> cases hc
  rcases hm : p.msgType
  all_goals simp only [ServeDHCP, hm] at hrun
  case discover => exact discoverReply_pxe h ds st p.chaddr p.options r now st2 pkt g hrun hg
  case request =>
    split at hrun
    · split at hrun
      · exact requestReplyBody_pxe h ds st p.chaddr _ p.options r now st2 pkt g hrun hg hnak
      · simp at hrun
    · exact requestReplyBody_pxe h ds st p.chaddr _ p.options r now st2 pkt g hrun hg hnak
  all_goals simp at hrun

/-- Witness for C6: the PXE Discover `discBPxe` produces an Offer whose
options include the three PXE options with the documented contents. -/
theorem pxe_option_parity_witness :
    (60, strBytes "PXEClient") ∈ c6pkt.options ∧
    (97, [1, 2, 3, 4, 5, 6, 7, 8, 9, 10, 11, 12, 13, 14, 15, 16]) ∈ c6pkt.options ∧
    (43, [6, 1, 3] ++ [8, 7, 128, 0, 1] ++ ipBytes handlerDemo.settings.serverIP ++
      [9, 3 + handlerDemo.bootMessage.length, 128, 0, 9] ++ handlerDemo.bootMessage ++
      [10, 1 + handlerDemo.bootMessage.length, 2] ++ handlerDemo.bootMessage ++ [255])
      ∈ c6pkt.options :=
  pxe_option_parity handlerDemo dsDemo emptyStore discBPxe 3 "t1" c6st c6pkt
    [0, 1, 2, 3, 4, 5, 6, 7, 8, 9, 10, 11, 12, 13, 14, 15, 16]
    (by decide) (by decide) (by decide) (by decide)

/-! ## Claim C7 -/

/-- C7: counterexample. The reply to a plain Discover is an Offer that
carries no HostName option 12 at all: only the Ack path appends it, so
not every positive reply includes it. -/
theorem offer_lacks_hostname_option :
    offerNoPxe.map (fun p => p.msgType) = some DhcpMsgType.offer ∧
    offerNoPxe.map (fun p => optLookup p.options 12) = some none := by
  refine ⟨by decide, by decide⟩

/-- Lemma: the Discover branch only ever emits Offers. -/
theorem discoverReply_msgType (h : DHCPHandler) (ds : EtcdDataSource) (st : EtcdStore)
    (ch : List Nat) (opts : List (Nat × List Nat)) (r : Nat) (now : String)
    (st2 : EtcdStore) (pkt : Packet)
    (hrun : discoverReply h ds st ch opts r now = HandlerResult.reply st2 (some pkt)) :
    pkt.msgType = DhcpMsgType.offer := by
  simp only [discoverReply] at hrun
  rcases he : (Assign ds st (macString ch) now).2.err with _ | e
  · rw [he] at hrun
    rcases hp : pxeAugment h (basePacket h DhcpMsgType.offer
        (Assign ds st (macString ch) now).2.ip r (optLookup opts 55)) (optLookup opts 97)
      with _ | out
    · rw [hp] at hrun; simp at hrun
    · rw [hp] at hrun
      simp at hrun
      rw [← hrun.2]
      exact pxeAugment_msgType h _ _ out hp
  · rw [he] at hrun; simp at hrun

/-- Lemma: an Ack emitted by the Request branch carries the hostname
option 12. -/
theorem requestReplyBody_ack_hostname (h : DHCPHandler) (ds : EtcdDataSource)
    (st : EtcdStore) (ch : List Nat) (reqIP : List Nat) (opts : List (Nat × List Nat))
    (r : Nat) (now : String) (st2 : EtcdStore) (pkt : Packet)
    (hrun : requestReplyBody h ds st ch reqIP opts r now = HandlerResult.reply st2 (some pkt))
    (hack : pkt.msgType = DhcpMsgType.ack) :
    (12, hostnameBytes ch h.clusterName) ∈ pkt.options := by
  simp only [requestReplyBody] at hrun
  split at hrun
  · simp at hrun
  · rcases hr : (Request ds st (macString ch) (ipOfBytes reqIP) now).2 with e | v
    · rw [hr] at hrun
      simp at hrun
      rw [← hrun.2] at hack
      simp [nakPacket] at hack
    · rw [hr] at hrun
      rcases hp : pxeAugment h (basePacket h DhcpMsgType.ack (some (ipOfBytes reqIP)) r
          (optLookup opts 55)) (optLookup opts 97) with _ | out
      · rw [hp] at hrun; simp at hrun
      · rw [hp] at hrun
        simp at hrun
        rw [← hrun.2]
        simp [addOption]

/-- C7 as amended: every Ack includes the HostName option 12 holding
node, the hex MAC without separators, a dot, and the cluster name;
Offers do not carry option 12 (see the counterexample). -/
theorem ack_contains_hostname (h : DHCPHandler) (ds : EtcdDataSource) (st : EtcdStore)
    (p : InPacket) (r : Nat) (now : String) (st2 : EtcdStore) (pkt : Packet)
    (hrun : ServeDHCP h ds st p r now = HandlerResult.reply st2 (some pkt))
    (hack : pkt.msgType = DhcpMsgType.ack) :
    (12, hostnameBytes p.chaddr h.clusterName) ∈ pkt.options := by
  rcases hm : p.msgType
  all_goals simp only [ServeDHCP, hm] at hrun
  case discover =>
    have := discoverReply_msgType h ds st p.chaddr p.options r now st2 pkt hrun
    rw [hack] at this
    cases this
  case request =>
    split at hrun
    · split at hrun
      · exact requestReplyBody_ack_hostname h ds st p.chaddr _ p.options r now st2 pkt hrun hack
      · simp at hrun
    · exact requestReplyBody_ack_hostname h ds st p.chaddr _ p.options r now st2 pkt hrun hack
  all_goals simp at hrun

/-- Witness for the amended C7: the concrete ACK produced for `reqA`
contains the hostname option. -/
theorem ack_contains_hostname_witness :
    (12, hostnameBytes reqA.chaddr handlerDemo.clusterName) ∈ c7pkt.options :=
  ack_contains_hostname handlerDemo dsDemo emptyStore reqA 5 "t0" c7st c7pkt
    (by decide) (by decide)

/-! ## Claim C10 -/

/-- C10: counterexample. A Discover whose option 97 value has length
zero makes the handler slice out of bounds: handling is not total. -/
theorem empty_guid_fault :
    ServeDHCP handlerDemo dsDemo emptyStore discBPxeEmpty 0 "t0" = HandlerResult.fault := by
  decide

/-- Lemma: a fault in the Discover branch forces a present, zero-length
option 97. -/
theorem discoverReply_fault (h : DHCPHandler) (ds : EtcdDataSource) (st : EtcdStore)
    (ch : List Nat) (opts : List (Nat × List Nat)) (r : Nat) (now : String)
    (hf : discoverReply h ds st ch opts r now = HandlerResult.fault) :
    optLookup opts 97 = some [] := by
  simp only [discoverReply] at hf
  rcases he : (Assign ds st (macString ch) now).2.err with _ | e
  · rw [he] at hf
    rcases hp : pxeAugment h (basePacket h DhcpMsgType.offer
        (Assign ds st (macString ch) now).2.ip r (optLookup opts 55)) (optLookup opts 97)
      with _ | out
    · exact pxeAugment_none h _ _ hp
    · rw [hp] at hf; simp at hf
  · rw [he] at hf; simp at hf

/-- Lemma: a fault in the Request branch forces a present, zero-length
option 97. -/
theorem requestReplyBody_fault (h : DHCPHandler) (ds : EtcdDataSource) (st : EtcdStore)
    (ch : List Nat) (reqIP : List Nat) (opts : List (Nat × List Nat)) (r : Nat)
    (now : String)
    (hf : requestReplyBody h ds st ch reqIP opts r now = HandlerResult.fault) :
    optLookup opts 97 = some [] := by
  simp only [requestReplyBody] at hf
  split at hf
  · simp at hf
  · rcases hr : (Request ds st (macString ch) (ipOfBytes reqIP) now).2 with e | v
    · rw [hr] at hf; simp at hf
    · rw [hr] at hf
      rcases hp : pxeAugment h (basePacket h DhcpMsgType.ack (some (ipOfBytes reqIP)) r
          (optLookup opts 55)) (optLookup opts 97) with _ | out
      · exact pxeAugment_none h _ _ hp
      · rw [hp] at hf; simp at hf

/-- C10 as amended: handling is total for every packet whose option 97,
when present, is nonempty; only a present zero-length option 97 value
reaches the out-of-bounds slice. -/
theorem serve_total_unless_empty_guid (h : DHCPHandler) (ds : EtcdDataSource)
    (st : EtcdStore) (p : InPacket) (r : Nat) (now : String)
    (hg : optLookup p.options 97 ≠ some []) :
    ServeDHCP h ds st p r now ≠ HandlerResult.fault := by
  intro hc
  rcases hm : p.msgType
  all_goals simp only [ServeDHCP, hm] at hc
  case discover => exact hg (discoverReply_fault h ds st p.chaddr p.options r now hc)
  case request =>
    split at hc
    · split at hc
      · exact hg (requestReplyBody_fault h ds st p.chaddr _ p.options r now hc)
      · simp at hc
    · exact hg (requestReplyBody_fault h ds st p.chaddr _ p.options r now hc)
  all_goals simp at hc

/-- Witness for the amended C10: the 17-byte option 97 Discover does not
fault. -/
theorem serve_total_unless_empty_guid_witness :
    ServeDHCP handlerDemo dsDemo emptyStore discBPxe 4 "t0" ≠ HandlerResult.fault :=
  serve_total_unless_empty_guid handlerDemo dsDemo emptyStore discBPxe 4 "t0" (by decide)
